import Mathlib

/-!
Formal model of the ultramem memory-bandwidth benchmark (src/ultramem.c).

Machine doubles are modelled as rationals, C size_t and int as Nat and
Int, and the platform environment (sysfs file reads, CPUID register
contents, allocation outcomes, clock samples) as explicit inputs to the
modelled functions.  Command-line tokens are modelled as lists of
characters.
-/

/-! ## Cache topology model (detect_cache_* in ultramem.c) -/

/-- Cache info structure, mirroring `cache_info_t` (ultramem.c lines
48-55).  Sizes are in bytes; `num_cores` is a C int. -/
structure cache_info_t where
  l1d_size : ℕ
  l1i_size : ℕ
  l2_size : ℕ
  l3_size : ℕ
  line_size : ℕ
  num_cores : ℤ
deriving DecidableEq

/-- Outcome of reading the sysfs files of one cache index directory
(`/sys/devices/system/cpu/cpu0/cache/indexN`): the `level` and `type`
reads (`none` models fopen or fscanf failure), the `read_cache_size`
result (0 on failure, exactly as that C helper returns), the
`coherency_line_size` read, and whether the `shared_cpu_list` file
opened and whether its first line could be read. -/
structure LinuxIdxEnv where
  level : Option ℕ
  type : Option (List Char)
  size : ℕ
  line : Option ℕ
  sharedOpen : Bool
  sharedRead : Bool

/-- Platform environment consumed by `detect_cache_linux`: the four
cache index directories, the final `max_core_id` of the /proc/cpuinfo
scan (`none` models fopen failure; the C scan starts from -1 so the
value may be -1 when no `core id` line matches), and the
`sysconf(_SC_NPROCESSORS_ONLN)` result. -/
structure LinuxEnv where
  idx : ℕ → LinuxIdxEnv
  cpuinfoMaxCoreId : Option ℤ
  nprocOnln : ℤ

/-- One iteration of the sysfs loop of `detect_cache_linux`
(ultramem.c lines 171-227) for cache index `i`: skip the index when
the `level` or `type` read fails, record the line size when present,
then dispatch on the level; a level-3 entry is stored unless the
`shared_cpu_list` file opens but yields no line.  Note the size is
stored as read, even when `read_cache_size` returned 0. -/
def linuxStep (env : LinuxEnv) (info : cache_info_t) (i : ℕ) : cache_info_t :=
  let e := env.idx i
  match e.level with
  | none => info
  | some level =>
    match e.type with
    | none => info
    | some ty =>
      let size := e.size
      let info1 := match e.line with
        | some l => { info with line_size := l }
        | none => info
      if level = 1 then
        if ty = ['D', 'a', 't', 'a'] then { info1 with l1d_size := size }
        else if ty = ['I', 'n', 's', 't', 'r', 'u', 'c', 't', 'i', 'o', 'n'] then
          { info1 with l1i_size := size }
        else info1
      else if level = 2 then { info1 with l2_size := size }
      else if level = 3 then
        if e.sharedOpen then
          if e.sharedRead then { info1 with l3_size := size } else info1
        else { info1 with l3_size := size }
      else info1

/-- Core-count part of `detect_cache_linux` (lines 229-247): when
/proc/cpuinfo opened, `num_cores` becomes `max_core_id + 1`; when the
result is still zero, fall back to `sysconf(_SC_NPROCESSORS_ONLN)`. -/
def linuxCores (env : LinuxEnv) (info : cache_info_t) : cache_info_t :=
  let info1 := match env.cpuinfoMaxCoreId with
    | some m => { info with num_cores := m + 1 }
    | none => info
  if info1.num_cores = 0 then { info1 with num_cores := env.nprocOnln } else info1

/-- Model of `detect_cache_linux` (lines 166-248): the four cache
index directories in order, then the core count. -/
def detect_cache_linux (env : LinuxEnv) (info : cache_info_t) : cache_info_t :=
  linuxCores env ((List.range 4).foldl (linuxStep env) info)

/-- CPUID output registers of one leaf-4 subleaf. -/
structure CpuidRegs where
  eax : ℕ
  ebx : ℕ
  ecx : ℕ
  edx : ℕ

/-- CPUID environment: the eax of leaf 0 (maximum supported leaf) and
the registers returned by leaf 4 at each subleaf. -/
structure CpuidEnv where
  leaf0eax : ℕ
  leaf4 : ℕ → CpuidRegs

/-- Field extraction and assignment for one CPUID leaf-4 descriptor
(ultramem.c lines 277-293); the bit masks and shifts on the 32-bit
registers are expressed with division and remainder. -/
def cpuidApply (r : CpuidRegs) (info : cache_info_t) : cache_info_t :=
  let cache_type := r.eax % 32
  let cache_level := r.eax / 32 % 8
  let line_size := r.ebx % 4096 + 1
  let partitions := r.ebx / 4096 % 1024 + 1
  let ways := r.ebx / 4194304 % 1024 + 1
  let sets := r.ecx + 1
  let size := line_size * partitions * ways * sets
  let info1 := { info with line_size := line_size }
  if cache_level = 1 ∧ cache_type = 1 then { info1 with l1d_size := size }
  else if cache_level = 1 ∧ cache_type = 2 then { info1 with l1i_size := size }
  else if cache_level = 2 then { info1 with l2_size := size }
  else if cache_level = 3 then { info1 with l3_size := size }
  else info1

/-- The `size` local of `detect_cache_cpuid` (line 286): line size
times partitions times ways times sets, each field decoded from the
descriptor registers as in `cpuidApply`. -/
def cpuidDescSize (r : CpuidRegs) : ℕ :=
  (r.ebx % 4096 + 1) * (r.ebx / 4096 % 1024 + 1) * (r.ebx / 4194304 % 1024 + 1) * (r.ecx + 1)

/-- Loop of `detect_cache_cpuid` (lines 274-294): subleaves are
visited in order until a descriptor of cache type 0 terminates the
scan; at most 32 subleaves are visited. -/
def cpuidLoop (env : CpuidEnv) : ℕ → ℕ → cache_info_t → cache_info_t
  | _, 0, info => info
  | i, fuel + 1, info =>
    if (env.leaf4 i).eax % 32 = 0 then info
    else cpuidLoop env (i + 1) fuel (cpuidApply (env.leaf4 i) info)

/-- Model of `detect_cache_cpuid` (lines 267-295): nothing happens
when leaf 4 is unsupported. -/
def detect_cache_cpuid (env : CpuidEnv) (info : cache_info_t) : cache_info_t :=
  if env.leaf0eax < 4 then info else cpuidLoop env 0 32 info

/-- Hardcoded defaults installed by `detect_cache_info` (lines
300-307).  The struct is zero-initialized and `num_cores` receives no
positive default. -/
def cacheDefaults : cache_info_t :=
  { l1d_size := 32 * 1024, l1i_size := 32 * 1024, l2_size := 256 * 1024,
    l3_size := 8 * 1024 * 1024, line_size := 64, num_cores := 0 }

/-- Model of `detect_cache_info` (lines 299-325) for a Linux build:
defaults, then the native sysfs probe, then — only on x86 builds and
only when the L3 field still equals the 8 MB default — the CPUID
probe. -/
def detect_cache_info (isX86 : Bool) (lenv : LinuxEnv) (cenv : CpuidEnv) : cache_info_t :=
  let info := detect_cache_linux lenv cacheDefaults
  if isX86 then
    if info.l3_size = 8 * 1024 * 1024 then detect_cache_cpuid cenv info else info
  else info

/-! ## Working-set sizing (main, lines 606-622) -/

/-- The C macro MAX (ultramem.c line 411). -/
def cMAX (x y : ℕ) : ℕ := if x > y then x else y

/-- Auto array sizing from main (lines 615-619): `l3_mb` is the
detected L3 size in whole megabytes and the per-array megabyte count
is `MAX(l3_mb * 4 / 3, 128)` (all divisions are C integer
divisions). -/
def autoArrayMb (l3_size : ℕ) : ℕ := cMAX (l3_size / (1024 * 1024) * 4 / 3) 128

/-- Element count from main (line 622): megabytes converted to bytes,
divided by sizeof(double). -/
def arrayElemCount (array_mb : ℕ) : ℕ := array_mb * 1024 * 1024 / 8

/-- Element count chosen when the operator supplies no size. -/
def autoElementCount (l3_size : ℕ) : ℕ := arrayElemCount (autoArrayMb l3_size)

/-! ## Benchmark kernels (ultramem.c lines 362-408) -/

/-- The three benchmark buffers a, b, c, modelled as total maps from
element index to value. -/
structure BenchState where
  a : ℕ → ℚ
  b : ℕ → ℚ
  c : ℕ → ℚ

/-- Buffer selection: buffer 0 is a, buffer 1 is b, buffer 2 is c
(callers index modulo 3). -/
def BenchState.buf (s : BenchState) : ℕ → ℕ → ℚ
  | 0 => s.a
  | 1 => s.b
  | _ => s.c

/-- Generic per-index loop shared by the kernels: fold the loop body
over indices 0..n-1, threading the buffer state and a running
accumulator (used only by the read kernel). -/
def streamFor (n : ℕ) (body : BenchState × ℚ → ℕ → BenchState × ℚ) (s : BenchState) :
    BenchState × ℚ :=
  (List.range n).foldl body (s, 0)

/-- kernel_copy (lines 362-367): c[i] = a[i]. -/
def kernel_copy (n : ℕ) (s : BenchState) : BenchState :=
  (streamFor n (fun st i => ({ st.1 with c := Function.update st.1.c i (st.1.a i) }, st.2)) s).1

/-- kernel_scale (lines 369-374): b[i] = scalar * c[i]. -/
def kernel_scale (n : ℕ) (scalar : ℚ) (s : BenchState) : BenchState :=
  (streamFor n
    (fun st i => ({ st.1 with b := Function.update st.1.b i (scalar * st.1.c i) }, st.2)) s).1

/-- kernel_add (lines 376-381): c[i] = a[i] + b[i]. -/
def kernel_add (n : ℕ) (s : BenchState) : BenchState :=
  (streamFor n
    (fun st i => ({ st.1 with c := Function.update st.1.c i (st.1.a i + st.1.b i) }, st.2)) s).1

/-- kernel_triad (lines 383-388): a[i] = b[i] + scalar * c[i]. -/
def kernel_triad (n : ℕ) (scalar : ℚ) (s : BenchState) : BenchState :=
  (streamFor n
    (fun st i =>
      ({ st.1 with a := Function.update st.1.a i (st.1.b i + scalar * st.1.c i) }, st.2)) s).1

/-- kernel_read (lines 390-397): a reduction `sum += a[i]` over the
index range; the pair returned is the final buffer state together
with the value stored through sum_out. -/
def kernel_read (n : ℕ) (s : BenchState) : BenchState × ℚ :=
  streamFor n (fun st i => (st.1, st.2 + st.1.a i)) s

/-- kernel_write (lines 399-404): a[i] = val. -/
def kernel_write (n : ℕ) (val : ℚ) (s : BenchState) : BenchState :=
  (streamFor n (fun st i => ({ st.1 with a := Function.update st.1.a i val }, st.2)) s).1

/-- kernel_memcpy (lines 406-408): memcpy(c, a, n * sizeof(double)),
a wholesale copy of the first n elements of a into c. -/
def kernel_memcpy (n : ℕ) (s : BenchState) : BenchState :=
  { s with c := fun i => if i < n then s.a i else s.c i }

/-- First-touch initial values (lines 454-459): a = 1.0, b = 2.0,
c = 0.0 at every index. -/
def initState : BenchState := ⟨fun _ => 1, fun _ => 2, fun _ => 0⟩

/-! ## Parameterized bandwidth kernel (spec-modelled)

The repository has a second, parameterized-pattern program variant
whose source is not under src/ (src/ contains only the fixed kernel
set above); its kernel is modelled from §4.3 of the spec. -/

/-- Modelled from the spec: the read phase of the parameterized kernel
of the pattern program variant (absent from src/) — at index i, sum
buffer[r mod 3][i] for r in [0, reads) into a local accumulator. -/
def genAcc (s : BenchState) (reads i : ℕ) : ℚ :=
  ∑ r in Finset.range reads, s.buf (r % 3) i

/-- Modelled from the spec: the write phase of the parameterized
kernel at one index — for w in [0, writes) store accumulator / (w+1)
into buffer[w mod 3]; `vals` is the per-index view of the three
buffers. -/
def writePass (acc : ℚ) (writes : ℕ) (vals : ℕ → ℚ) : ℕ → ℚ :=
  (List.range writes).foldl (fun v w => Function.update v (w % 3) (acc / ((w : ℚ) + 1))) vals

/-- Modelled from the spec: the full parameterized bandwidth kernel of
§4.3 (its source is not under src/) — for every index i < n, read
`reads` values into an accumulator, then, only if writes > 0, perform
the write pass; indices are independent (data-parallel loop). -/
def kernel_pattern (reads writes n : ℕ) (s : BenchState) : BenchState :=
  let out : ℕ → ℕ → ℚ := fun j i =>
    if i < n then
      if writes = 0 then s.buf j i
      else writePass (genAcc s reads i) writes (fun j' => s.buf j' i) j
    else s.buf j i
  ⟨out 0, out 1, out 2⟩

/-! ## Trial harness (run_benchmark, lines 417-554) -/

/-- One step of the statistics loop of run_benchmark (lines 527-531):
accumulate the sum and fold min and max. -/
def statsStep (ts : ℕ → ℚ) (p : ℚ × ℚ × ℚ) (k : ℕ) : ℚ × ℚ × ℚ :=
  (p.1 + ts k, min p.2.1 (ts k), max p.2.2 (ts k))

/-- Per-kernel trial statistics of run_benchmark (lines 522-532):
min and max are seeded with times[1], the loop runs over trials
k = 1 .. N-1, and the accumulated sum is divided by N - 1.  The
result triple is (avg_time, min_time, max_time). -/
def trialStats (ts : ℕ → ℚ) (N : ℕ) : ℚ × ℚ × ℚ :=
  let r := (List.range' 1 (N - 1)).foldl (statsStep ts) (0, ts 1, ts 1)
  (r.1 / ((N - 1 : ℕ) : ℚ), r.2.1, r.2.2)

/-- Best bandwidth figure (line 534): bytes / min_time / 1e6. -/
def bestMbps (bytes : ℚ) (ts : ℕ → ℚ) (N : ℕ) : ℚ :=
  bytes / (trialStats ts N).2.1 / 1000000

/-- Average bandwidth figure (line 535): bytes / avg_time / 1e6. -/
def avgMbps (bytes : ℚ) (ts : ℕ → ℚ) (N : ℕ) : ℚ :=
  bytes / (trialStats ts N).1 / 1000000

/-- Bytes moved per trial for each of the seven kernels (lines
470-478), as a function of the element count. -/
def bytesArr (n : ℕ) : ℕ → ℚ
  | 0 => 2 * 8 * (n : ℚ)
  | 1 => 2 * 8 * (n : ℚ)
  | 2 => 3 * 8 * (n : ℚ)
  | 3 => 3 * 8 * (n : ℚ)
  | 4 => 1 * 8 * (n : ℚ)
  | 5 => 1 * 8 * (n : ℚ)
  | _ => 2 * 8 * (n : ℚ)

/-- One pass of the benchmark loop body (lines 486-514): the seven
kernels applied in order, with scalar 3.0 and write value 1.0. -/
def benchPass (n : ℕ) (s : BenchState) : BenchState :=
  kernel_memcpy n
    (kernel_write n 1
      ((kernel_read n
        (kernel_triad n 3
          (kernel_add n
            (kernel_scale n 3
              (kernel_copy n s))))).1))

/-- The report rows printed by run_benchmark (lines 522-541): for each
kernel j, (best MB/s, avg MB/s, min time, max time). -/
def benchReport (times : ℕ → ℕ → ℚ) (n N : ℕ) : List (ℚ × ℚ × ℚ × ℚ) :=
  (List.range 7).map fun j =>
    (bestMbps (bytesArr n j) (times j) N, avgMbps (bytesArr n j) (times j) N,
     (trialStats (times j) N).2.1, (trialStats (times j) N).2.2)

/-- Outcome of the three aligned allocations of run_benchmark (lines
421-423); `none` models a failed `alloc_aligned` call. -/
structure AllocEnv where
  allocA : Option (ℕ → ℚ)
  allocB : Option (ℕ → ℚ)
  allocC : Option (ℕ → ℚ)

/-- Model of run_benchmark (lines 417-554): when any of the three
buffer allocations fails the process exits with status 1 (lines
425-428), running no kernel and printing no measurement table;
otherwise the buffers are first-touch initialized, the kernel loop
runs N times and the statistics table is produced.  The elapsed
times are an environment input. -/
def run_benchmark (env : AllocEnv) (times : ℕ → ℕ → ℚ) (n N : ℕ) :
    Except ℕ (BenchState × List (ℚ × ℚ × ℚ × ℚ)) :=
  match env.allocA, env.allocB, env.allocC with
  | some _, some _, some _ => Except.ok ((benchPass n)^[N] initState, benchReport times n N)
  | _, _, _ => Except.error 1

/-! ## Command line (spec-modelled)

The reads:writes pattern argument belongs to the parameterized-pattern
program variant, whose source is not under src/; its CLI is modelled
from §4.2 and §6 of the spec.  Tokens are lists of characters. -/

/-- Modelled from the spec: decimal digit value of one character. -/
def digitVal? (ch : Char) : Option ℕ :=
  if '0' ≤ ch ∧ ch ≤ '9' then some (ch.toNat - Char.toNat '0') else none

/-- Modelled from the spec: accumulate decimal digits left to right. -/
def parseNatAux : List Char → ℕ → Option ℕ
  | [], acc => some acc
  | ch :: rest, acc =>
    match digitVal? ch with
    | some d => parseNatAux rest (acc * 10 + d)
    | none => none

/-- Modelled from the spec: parse a nonempty all-digit token as a
natural number; anything else is malformed. -/
def parseNatTok : List Char → Option ℕ
  | [] => none
  | l => parseNatAux l 0

/-- Modelled from the spec: split a token at its single colon; zero
colons or more than one colon is malformed. -/
def breakColon : List Char → Option (List Char × List Char)
  | [] => none
  | ch :: rest =>
    if ch = ':' then
      if rest.contains ':' then none else some ([], rest)
    else
      match breakColon rest with
      | some p => some (ch :: p.1, p.2)
      | none => none

/-- Modelled from the spec: parse the colon-separated reads:writes
pattern argument into a pair of naturals. -/
def parsePattern (tok : List Char) : Option (ℕ × ℕ) :=
  match breakColon tok with
  | none => none
  | some p =>
    match parseNatTok p.1, parseNatTok p.2 with
    | some r, some w => some (r, w)
    | _, _ => none

/-- Modelled from the spec: pattern validity — each component in
[0, 100] and not both zero. -/
def patternValid (p : ℕ × ℕ) : Prop :=
  p.1 ≤ 100 ∧ p.2 ≤ 100 ∧ ¬(p.1 = 0 ∧ p.2 = 0)

instance (p : ℕ × ℕ) : Decidable (patternValid p) := by
  unfold patternValid; infer_instance

/-- Validated configuration assembled by the CLI front end. -/
structure CliConfig where
  threads : ℕ
  reads : ℕ
  writes : ℕ
  array_mb : ℕ
deriving DecidableEq

/-- Modelled from the spec: command-line front end of the
parameterized-pattern program variant (its source is not under src/).
Arguments: thread count, reads:writes pattern, optional per-array
megabyte size.  Validation follows §4.2 and §6: threads in [1, 1024],
pattern components in [0, 100] and not both zero, size in [1, 65536];
any violation, and any missing required argument, yields exit code 1;
with no size argument the auto sizing of §4.2 applies to the detected
L3 size. -/
def cliMain (l3_size : ℕ) (args : List (List Char)) : Except ℕ CliConfig :=
  match args with
  | t :: p :: rest =>
    let threads := (parseNatTok t).getD 0
    if threads < 1 ∨ 1024 < threads then Except.error 1
    else
      match parsePattern p with
      | none => Except.error 1
      | some pat =>
        if patternValid pat then
          match rest with
          | [] => Except.ok ⟨threads, pat.1, pat.2, autoArrayMb l3_size⟩
          | mbTok :: _ =>
            let amb := (parseNatTok mbTok).getD 0
            if amb < 1 ∨ 65536 < amb then Except.error 1
            else Except.ok ⟨threads, pat.1, pat.2, amb⟩
        else Except.error 1
  | _ => Except.error 1

/-- Buffer allocation is attempted only on a configuration the CLI
validation accepted; a rejected invocation never reaches it. -/
def cliAllocAttempted (l3_size : ℕ) (args : List (List Char)) : Bool :=
  match cliMain l3_size args with
  | Except.ok _ => true
  | Except.error _ => false

/-! ## Concrete environments used by closed theorems -/

/-- A cache index directory none of whose files are readable. -/
def idxEnvNone : LinuxIdxEnv := ⟨none, none, 0, none, false, false⟩

/-- A sysfs environment whose index 0 has readable `level` (2) and
`type` files but an unreadable `size` file, so `read_cache_size`
returns 0. -/
def lenvZeroL2 : LinuxEnv :=
  ⟨fun i => if i = 0 then ⟨some 2, some ['U', 'n', 'i', 'f', 'i', 'e', 'd'], 0, none, false, false⟩
    else idxEnvNone, some 3, 8⟩

/-- A sysfs environment where every cache probe fails. -/
def lenvAllFail : LinuxEnv := ⟨fun _ => idxEnvNone, some 3, 8⟩

/-- A sysfs environment that finds a level-3 cache of 1000 bytes. -/
def lenvL3Found : LinuxEnv :=
  ⟨fun i => if i = 0 then ⟨some 3, some ['U', 'n', 'i', 'f', 'i', 'e', 'd'], 1000, none, false, false⟩
    else idxEnvNone, some 3, 8⟩

/-- A CPUID environment advertising a single level-3 data descriptor
at subleaf 0 (eax 97 encodes type 1 and level 3; ebx 63 encodes line
size 64, one partition, one way; ecx 4095 encodes 4096 sets) and a
terminating type-0 descriptor at subleaf 1. -/
def cenvOneL3 : CpuidEnv :=
  ⟨4, fun i => if i = 0 then ⟨97, 63, 4095, 0⟩ else ⟨0, 0, 0, 0⟩⟩

/-- A CPUID environment whose maximum leaf is below 4. -/
def cenvEmpty : CpuidEnv := ⟨0, fun _ => ⟨0, 0, 0, 0⟩⟩

/-- A CPUID environment with three non-terminating descriptors — an
L1 data descriptor (eax 33: type 1, level 1), an L2 descriptor
(eax 65: type 1, level 2) and an L3 descriptor (eax 97: type 1,
level 3) — followed by a terminating type-0 descriptor at subleaf 3. -/
def cenvMulti : CpuidEnv :=
  ⟨4, fun i =>
    if i = 0 then ⟨33, 63, 4095, 0⟩
    else if i = 1 then ⟨65, 63, 8191, 0⟩
    else if i = 2 then ⟨97, 63, 4095, 0⟩
    else ⟨0, 0, 0, 0⟩⟩

/-! ## Helper lemmas and claim theorems -/

/-- C4: the claim states that discover() returns a topology in which
every field is positive (with defaults 32KB/32KB/256KB/8MB/64B and at
least 1 core) and that no probe ever leaves a field at zero.  The code
diverges: the sysfs probe stores the `read_cache_size` result even
when it is 0 (an unreadable size file), here zeroing the L2 field that
had a positive default, and the defaults give `num_cores` no positive
value. -/
theorem detect_cache_zero_l2 :
    (detect_cache_info false lenvZeroL2 cenvEmpty).l2_size = 0 ∧
    cacheDefaults.l2_size = 256 * 1024 ∧
    cacheDefaults.num_cores = 0 := ⟨by decide, by decide, by decide⟩

/-- C5 counterexample: with a detected L3 of 100 MiB and no operator
override, the chosen element count does not satisfy
3 × element_count × 8 ≥ 4 × l3_bytes — the total working set is
strictly below 4 × L3 (the C integer divisions round the 4/3 factor
down: 100*4/3 = 133 and 3×133 MiB < 400 MiB). -/
theorem sizing_invariant_fails_at_100mb :
    3 * autoElementCount (100 * 1024 * 1024) * 8 < 4 * (100 * 1024 * 1024) := by decide

/-- C5 amended: for every detected L3 size and no operator override,
the chosen element_count satisfies the sizing inequality up to the
integer-division rounding of main: 3 × element_count × 8 bytes is at
least 4 × ⌊l3_bytes / 1MiB⌋ MiB minus 2 MiB. -/
theorem sizing_invariant_amended (l3_size : ℕ) :
    4 * (l3_size / (1024 * 1024)) * (1024 * 1024) ≤
      3 * autoElementCount l3_size * 8 + 2 * (1024 * 1024) := by
  unfold autoElementCount arrayElemCount autoArrayMb cMAX
  split <;> omega

/-- C6: with no operator override the auto-sizing policy computes
per_array_mb = max(l3_mb * 4 / 3, 128); at L3 = 8 MiB this is 128 MB,
and the element count is the megabyte figure converted to bytes and
divided by 8 (giving 16777216 elements at 128 MB). -/
theorem auto_sizing_law :
    autoArrayMb (8 * 1024 * 1024) = 128 ∧
    autoElementCount (8 * 1024 * 1024) = 16777216 ∧
    (∀ l3_size : ℕ, autoArrayMb l3_size = max (l3_size / (1024 * 1024) * 4 / 3) 128) ∧
    (∀ l3_size : ℕ, autoElementCount l3_size = autoArrayMb l3_size * 1024 * 1024 / 8) := by
  refine ⟨by decide, by decide, ?_, fun _ => rfl⟩
  intro l3_size
  unfold autoArrayMb cMAX
  split <;> omega

/-- The read kernel's loop body never changes the buffer state and
accumulates the sum of a over the index range. -/
lemma kernel_read_eq (s : BenchState) (n : ℕ) :
    kernel_read n s = (s, ∑ i in Finset.range n, s.a i) := by
  induction n with
  | zero => simp [kernel_read, streamFor]
  | succ m ih =>
    unfold kernel_read streamFor at ih ⊢
    rw [List.range_succ, List.foldl_append, ih]
    simp [Finset.sum_range_succ]

/-- C10: kernel_read stores into *sum_out the sum of a[0..n) and
leaves all three buffers unchanged at every index; it is the only
kernel with no buffer mutation — each of the six other kernels does
mutate a buffer on suitable inputs (shown on the first-touch state,
with write value 5). -/
theorem kernel_read_frame :
    (∀ n s, (kernel_read n s).1 = s ∧ (kernel_read n s).2 = ∑ i in Finset.range n, s.a i) ∧
    (kernel_copy 1 initState).c 0 ≠ initState.c 0 ∧
    (kernel_scale 1 3 initState).b 0 ≠ initState.b 0 ∧
    (kernel_add 1 initState).c 0 ≠ initState.c 0 ∧
    (kernel_triad 1 3 initState).a 0 ≠ initState.a 0 ∧
    (kernel_write 1 5 initState).a 0 ≠ initState.a 0 ∧
    (kernel_memcpy 1 initState).c 0 ≠ initState.c 0 := by
  refine ⟨fun n s => by rw [kernel_read_eq]; exact ⟨rfl, rfl⟩, ?_, ?_, ?_, ?_, ?_, ?_⟩ <;>
    norm_num [kernel_copy, kernel_scale, kernel_add, kernel_triad, kernel_write,
      kernel_memcpy, streamFor, initState, show List.range 1 = [0] from rfl,
      Function.update]

/-- Unfolding one write slot: the write pass over [0, m+1) is the
write pass over [0, m) followed by the update of slot m. -/
lemma writePass_succ (acc : ℚ) (m : ℕ) (vals : ℕ → ℚ) :
    writePass acc (m + 1) vals =
      Function.update (writePass acc m vals) (m % 3) (acc / ((m : ℚ) + 1)) := by
  unfold writePass
  rw [List.range_succ, List.foldl_append]
  rfl

/-- Last write wins: if slot w is the last slot of its buffer class
below `writes`, the write pass leaves acc / (w+1) in buffer w % 3. -/
lemma writePass_last (acc : ℚ) (vals : ℕ → ℚ) :
    ∀ writes w, w < writes → (∀ w', w' < writes → w < w' → w' % 3 ≠ w % 3) →
      writePass acc writes vals (w % 3) = acc / ((w : ℚ) + 1) := by
  intro writes
  induction writes with
  | zero => intro w hw; exact absurd hw (by omega)
  | succ m ih =>
    intro w hw hlast
    rw [writePass_succ]
    by_cases hwm : w = m
    · subst hwm
      rw [Function.update_same]
    · have hne : w % 3 ≠ m % 3 := fun h => hlast m (by omega) (by omega) h.symm
      rw [Function.update_noteq hne]
      exact ih w (by omega) fun w' h1 h2 => hlast w' (by omega) h2

/-- C1: for every valid pattern (reads, writes) with components in
[0, 100] and not both zero, the parameterized kernel leaves each
written buffer element equal to (sum over r < reads of
buffer[r mod 3][i]) divided by (w+1), where w is the corresponding
(last) write slot of that buffer; this holds at every index i of a
buffer of any size n and does not involve the thread count (the loop
is data-parallel with independent indices). -/
theorem kernel_pattern_write_law (reads writes n : ℕ) (s : BenchState) (i w : ℕ)
    (hr : reads ≤ 100) (hw : writes ≤ 100) (hnz : ¬(reads = 0 ∧ writes = 0))
    (hi : i < n) (hww : w < writes)
    (hlast : ∀ w', w' < writes → w < w' → w' % 3 ≠ w % 3) :
    (kernel_pattern reads writes n s).buf (w % 3) i = genAcc s reads i / ((w : ℚ) + 1) := by
  have hw0 : writes ≠ 0 := by omega
  have key := writePass_last (genAcc s reads i) (fun j' => s.buf j' i) writes w hww hlast
  have h3 : w % 3 = 0 ∨ w % 3 = 1 ∨ w % 3 = 2 := by omega
  rcases h3 with h | h | h <;>
    rw [h] at key ⊢ <;>
    simp only [kernel_pattern, BenchState.buf] <;>
    rw [if_pos hi, if_neg hw0] <;>
    exact key

/-- C1 witness: pattern 2:4 on a one-element working set in its
first-touch state; slot 3 is the last writer of buffer 0. -/
theorem kernel_pattern_write_law_witness :
    (2 ≤ 100 ∧ 4 ≤ 100 ∧ ¬(2 = 0 ∧ 4 = 0) ∧ 0 < 1 ∧ 3 < 4) ∧
    (kernel_pattern 2 4 1 initState).buf (3 % 3) 0 = genAcc initState 2 0 / (((3 : ℕ) : ℚ) + 1) := by
  refine ⟨by omega, ?_⟩
  exact kernel_pattern_write_law 2 4 1 initState 0 3 (by omega) (by omega) (by omega)
    (by omega) (by omega) (by intro w' h1 h2; omega)

/-- Invariant of the statistics fold: over trials 1..m the sum, the
running minimum and the running maximum are exactly the sum of the
samples and two of the samples bounding all of them. -/
lemma statsFold_spec (ts : ℕ → ℚ) :
    ∀ m : ℕ, 1 ≤ m →
      ((List.range' 1 m).foldl (statsStep ts) (0, ts 1, ts 1)).1 =
          (∑ k in Finset.Ico 1 (m + 1), ts k) ∧
      (∀ k, 1 ≤ k → k ≤ m →
        ((List.range' 1 m).foldl (statsStep ts) (0, ts 1, ts 1)).2.1 ≤ ts k ∧
        ts k ≤ ((List.range' 1 m).foldl (statsStep ts) (0, ts 1, ts 1)).2.2) ∧
      (∃ k1, 1 ≤ k1 ∧ k1 ≤ m ∧
        ((List.range' 1 m).foldl (statsStep ts) (0, ts 1, ts 1)).2.1 = ts k1) ∧
      (∃ k2, 1 ≤ k2 ∧ k2 ≤ m ∧
        ((List.range' 1 m).foldl (statsStep ts) (0, ts 1, ts 1)).2.2 = ts k2) := by
  intro m
  induction m with
  | zero => intro h; exact absurd h (by omega)
  | succ mm ih =>
    intro _
    by_cases h0 : mm = 0
    · subst h0
      refine ⟨?_, ?_, ⟨1, by omega, by omega, ?_⟩, ⟨1, by omega, by omega, ?_⟩⟩
      · norm_num [statsStep, show List.range' 1 1 = [1] from rfl,
          show Finset.Ico 1 2 = {1} from rfl]
      · intro k h1 h2
        have hk : k = 1 := by omega
        subst hk
        norm_num [statsStep, show List.range' 1 1 = [1] from rfl]
      · norm_num [statsStep, show List.range' 1 1 = [1] from rfl]
      · norm_num [statsStep, show List.range' 1 1 = [1] from rfl]
    · have hmm : 1 ≤ mm := by omega
      obtain ⟨hsum, hbounds, ⟨k1, hk11, hk12, hmin⟩, ⟨k2, hk21, hk22, hmax⟩⟩ := ih hmm
      have hone : 1 + 1 * mm = mm + 1 := by omega
      rw [List.range'_concat, hone, List.foldl_append] at *
      simp only [List.foldl_cons, List.foldl_nil] at *
      set F := (List.range' 1 mm).foldl (statsStep ts) (0, ts 1, ts 1) with hF
      simp only [statsStep]
      refine ⟨?_, ?_, ?_, ?_⟩
      · rw [Finset.sum_Ico_succ_top (by omega : 1 ≤ mm + 1)]
        simp [hsum]
      · intro k hh1 hh2
        by_cases hkm : k ≤ mm
        · exact ⟨le_trans (min_le_left _ _) (hbounds k hh1 hkm).1,
            le_trans (hbounds k hh1 hkm).2 (le_max_left _ _)⟩
        · have hk : k = mm + 1 := by omega
          subst hk
          exact ⟨min_le_right _ _, le_max_right _ _⟩
      · rcases le_total F.2.1 (ts (mm + 1)) with hle | hge
        · exact ⟨k1, by omega, by omega, by rw [min_eq_left hle]; exact hmin⟩
        · exact ⟨mm + 1, by omega, by omega, by rw [min_eq_right hge]⟩
      · rcases le_total F.2.2 (ts (mm + 1)) with hle | hge
        · exact ⟨mm + 1, by omega, by omega, by rw [max_eq_right hle]⟩
        · exact ⟨k2, by omega, by omega, by rw [max_eq_left hge]; exact hmax⟩

/-- The average component of the trial statistics is the sum of the
non-warm-up samples divided by their count. -/
lemma trialStats_fst (ts : ℕ → ℚ) (N : ℕ) (hN : 2 ≤ N) :
    (trialStats ts N).1 = (∑ k in Finset.Ico 1 N, ts k) / ((N - 1 : ℕ) : ℚ) := by
  have h := (statsFold_spec ts (N - 1) (by omega)).1
  have h2 : N - 1 + 1 = N := by omega
  rw [h2] at h
  simp only [trialStats]
  rw [h]

/-- The minimum component bounds every non-warm-up sample below. -/
lemma trialStats_min_le (ts : ℕ → ℚ) (N : ℕ) (hN : 2 ≤ N) (k : ℕ)
    (hk1 : 1 ≤ k) (hk2 : k < N) : (trialStats ts N).2.1 ≤ ts k := by
  have h := ((statsFold_spec ts (N - 1) (by omega)).2.1 k hk1 (by omega)).1
  simp only [trialStats]
  exact h

/-- The maximum component bounds every non-warm-up sample above. -/
lemma trialStats_le_max (ts : ℕ → ℚ) (N : ℕ) (hN : 2 ≤ N) (k : ℕ)
    (hk1 : 1 ≤ k) (hk2 : k < N) : ts k ≤ (trialStats ts N).2.2 := by
  have h := ((statsFold_spec ts (N - 1) (by omega)).2.1 k hk1 (by omega)).2
  simp only [trialStats]
  exact h

/-- The minimum component is one of the non-warm-up samples. -/
lemma trialStats_min_mem (ts : ℕ → ℚ) (N : ℕ) (hN : 2 ≤ N) :
    ∃ k, 1 ≤ k ∧ k < N ∧ (trialStats ts N).2.1 = ts k := by
  obtain ⟨k1, h1, h2, h3⟩ := (statsFold_spec ts (N - 1) (by omega)).2.2.1
  exact ⟨k1, h1, by omega, by simp only [trialStats]; exact h3⟩

/-- The maximum component is one of the non-warm-up samples. -/
lemma trialStats_max_mem (ts : ℕ → ℚ) (N : ℕ) (hN : 2 ≤ N) :
    ∃ k, 1 ≤ k ∧ k < N ∧ (trialStats ts N).2.2 = ts k := by
  obtain ⟨k2, h1, h2, h3⟩ := (statsFold_spec ts (N - 1) (by omega)).2.2.2
  exact ⟨k2, h1, by omega, by simp only [trialStats]; exact h3⟩

/-- The statistics fold evaluates its sample function only at indices
of the folded range, all of which are at least the range start. -/
lemma statsFold_congr (ts ts' : ℕ → ℚ) (h : ∀ k, 1 ≤ k → ts k = ts' k) :
    ∀ (m s : ℕ) (p : ℚ × ℚ × ℚ), 1 ≤ s →
      (List.range' s m).foldl (statsStep ts) p = (List.range' s m).foldl (statsStep ts') p := by
  intro m
  induction m with
  | zero => intro s p hs; rfl
  | succ mm ih =>
    intro s p hs
    rw [List.range'_succ, List.foldl_cons, List.foldl_cons,
      show statsStep ts p s = statsStep ts' p s from by simp [statsStep, h s hs]]
    exact ih (s + 1) _ (by omega)

/-- Changing the warm-up sample (trial 0) never changes the trial
statistics. -/
lemma trialStats_update0 (ts : ℕ → ℚ) (N : ℕ) (x : ℚ) :
    trialStats (Function.update ts 0 x) N = trialStats ts N := by
  have h : ∀ k, 1 ≤ k → Function.update ts 0 x k = ts k := fun k hk =>
    Function.update_noteq (by omega) x ts
  simp only [trialStats]
  rw [h 1 (by omega), statsFold_congr (Function.update ts 0 x) ts h (N - 1) 1 _ (by omega)]

/-- C2: the harness discards the warm-up sample and reduces samples
[1, N) only — changing sample 0 never changes the statistics, the
average is the sum over [1, N) divided by N - 1, and the minimum and
maximum are taken over [1, N); the reported figures are
bytes / min_time / 1e6 (best) and bytes / avg_time / 1e6 (average). -/
theorem harness_stats_law (ts : ℕ → ℚ) (N : ℕ) (hN : 2 ≤ N) :
    (∀ x : ℚ, trialStats (Function.update ts 0 x) N = trialStats ts N) ∧
    (trialStats ts N).1 = (∑ k in Finset.Ico 1 N, ts k) / ((N - 1 : ℕ) : ℚ) ∧
    (∀ k, 1 ≤ k → k < N → (trialStats ts N).2.1 ≤ ts k ∧ ts k ≤ (trialStats ts N).2.2) ∧
    (∃ k, 1 ≤ k ∧ k < N ∧ (trialStats ts N).2.1 = ts k) ∧
    (∃ k, 1 ≤ k ∧ k < N ∧ (trialStats ts N).2.2 = ts k) ∧
    (∀ bytes : ℚ, bestMbps bytes ts N = bytes / (trialStats ts N).2.1 / 1000000 ∧
      avgMbps bytes ts N = bytes / (trialStats ts N).1 / 1000000) := by
  refine ⟨fun x => trialStats_update0 ts N x, trialStats_fst ts N hN, ?_,
    trialStats_min_mem ts N hN, trialStats_max_mem ts N hN, fun bytes => ⟨rfl, rfl⟩⟩
  intro k hk1 hk2
  exact ⟨trialStats_min_le ts N hN k hk1 hk2, trialStats_le_max ts N hN k hk1 hk2⟩

/-- C2 witness: a two-trial series with samples k ↦ k. -/
theorem harness_stats_law_witness :
    (2 ≤ 2) ∧
    (trialStats (fun k => (k : ℚ)) 2).1 =
      (∑ k in Finset.Ico (1 : ℕ) 2, (k : ℚ)) / ((2 - 1 : ℕ) : ℚ) :=
  ⟨by omega, (harness_stats_law (fun k => (k : ℚ)) 2 (by omega)).2.1⟩

/-- C9: for at least two trials the reduced statistics satisfy
min_time ≤ avg_time ≤ max_time, and whenever the byte figure and all
non-warm-up sample times are positive, best MB/s is at least
average MB/s. -/
theorem stats_min_avg_max (bytes : ℚ) (ts : ℕ → ℚ) (N : ℕ) (hN : 2 ≤ N) :
    (trialStats ts N).2.1 ≤ (trialStats ts N).1 ∧
    (trialStats ts N).1 ≤ (trialStats ts N).2.2 ∧
    (0 < bytes → (∀ k, 1 ≤ k → k < N → 0 < ts k) →
      avgMbps bytes ts N ≤ bestMbps bytes ts N) := by
  have hcast : (0 : ℚ) < ((N - 1 : ℕ) : ℚ) := by
    have : (0 : ℕ) < N - 1 := by omega
    exact_mod_cast this
  have hcard : (Finset.Ico 1 N).card = N - 1 := Nat.card_Ico 1 N
  have hminavg : (trialStats ts N).2.1 ≤ (trialStats ts N).1 := by
    rw [trialStats_fst ts N hN]
    rw [le_div_iff₀ hcast, mul_comm]
    have h := Finset.card_nsmul_le_sum (Finset.Ico 1 N) ts ((trialStats ts N).2.1)
      (fun k hk => by
        rw [Finset.mem_Ico] at hk
        exact trialStats_min_le ts N hN k hk.1 hk.2)
    rw [hcard, nsmul_eq_mul] at h
    exact h
  have havgmax : (trialStats ts N).1 ≤ (trialStats ts N).2.2 := by
    rw [trialStats_fst ts N hN]
    rw [div_le_iff₀ hcast]
    have h := Finset.sum_le_card_nsmul (Finset.Ico 1 N) ts ((trialStats ts N).2.2)
      (fun k hk => by
        rw [Finset.mem_Ico] at hk
        exact trialStats_le_max ts N hN k hk.1 hk.2)
    rw [hcard, nsmul_eq_mul, mul_comm] at h
    exact h
  refine ⟨hminavg, havgmax, fun hb hpos => ?_⟩
  have hminpos : 0 < (trialStats ts N).2.1 := by
    obtain ⟨k, hk1, hk2, hmk⟩ := trialStats_min_mem ts N hN
    rw [hmk]
    exact hpos k hk1 hk2
  have havgpos : 0 < (trialStats ts N).1 := lt_of_lt_of_le hminpos hminavg
  unfold avgMbps bestMbps
  rw [div_le_div_iff_of_pos_right (by norm_num : (0 : ℚ) < 1000000)]
  exact div_le_div_of_nonneg_left (le_of_lt hb) hminpos hminavg

/-- C9 witness: a constant two-trial series with one byte moved. -/
theorem stats_min_avg_max_witness :
    ((0 : ℚ) < 1) ∧ avgMbps 1 (fun _ => (1 : ℚ)) 2 ≤ bestMbps 1 (fun _ => (1 : ℚ)) 2 :=
  ⟨by norm_num, (stats_min_avg_max 1 (fun _ => (1 : ℚ)) 2 (by omega)).2.2 (by norm_num)
    (fun k h1 h2 => by norm_num)⟩

/-- C3: the CLI requires a reads:writes pattern argument — an
invocation with no or too few arguments, and any invocation whose
pattern is malformed, is 0:0, or has a component above 100, is
rejected with exit code 1, and buffer allocation is never attempted. -/
theorem cli_rejects_bad_pattern (l3_size : ℕ) (t p : List Char) (rest : List (List Char))
    (hbad : parsePattern p = none ∨ ∀ pat, parsePattern p = some pat → ¬ patternValid pat) :
    cliMain l3_size [] = Except.error 1 ∧
    cliMain l3_size [t] = Except.error 1 ∧
    cliMain l3_size (t :: p :: rest) = Except.error 1 ∧
    cliAllocAttempted l3_size (t :: p :: rest) = false := by
  have hmain : cliMain l3_size (t :: p :: rest) = Except.error 1 := by
    simp only [cliMain]
    by_cases ht : (parseNatTok t).getD 0 < 1 ∨ 1024 < (parseNatTok t).getD 0
    · rw [if_pos ht]
    · rw [if_neg ht]
      rcases hbad with hb | hb
      · rw [hb]
      · cases hp : parsePattern p with
        | none => rfl
        | some pat => simp [hb pat hp]
  refine ⟨rfl, rfl, hmain, ?_⟩
  unfold cliAllocAttempted
  rw [hmain]

/-- C3 witness: the boundary patterns 0:0 and 101:5 of the spec. -/
theorem cli_rejects_bad_pattern_witness :
    parsePattern ['0', ':', '0'] = some (0, 0) ∧
    cliMain (8 * 1024 * 1024) [['4'], ['0', ':', '0']] = Except.error 1 ∧
    cliMain (8 * 1024 * 1024) [['4'], ['1', '0', '1', ':', '5']] = Except.error 1 := by
  refine ⟨by decide, ?_, ?_⟩
  · exact (cli_rejects_bad_pattern (8 * 1024 * 1024) ['4'] ['0', ':', '0'] []
      (Or.inr fun pat hp => by
        rw [show parsePattern ['0', ':', '0'] = some (0, 0) from rfl] at hp
        cases hp
        decide)).2.2.1
  · exact (cli_rejects_bad_pattern (8 * 1024 * 1024) ['4'] ['1', '0', '1', ':', '5'] []
      (Or.inr fun pat hp => by
        rw [show parsePattern ['1', '0', '1', ':', '5'] = some (101, 5) from rfl] at hp
        cases hp
        decide)).2.2.1

/-- One unfolding step of the CPUID subleaf scan. -/
lemma cpuidLoop_step (env : CpuidEnv) (i fuel : ℕ) (info : cache_info_t) :
    cpuidLoop env i (fuel + 1) info =
      if (env.leaf4 i).eax % 32 = 0 then info
      else cpuidLoop env (i + 1) fuel (cpuidApply (env.leaf4 i) info) := rfl

/-- The CPUID subleaf scan applies `cpuidApply` to every descriptor it
visits, in subleaf order, until a type-0 descriptor (or fuel
exhaustion) stops it. -/
lemma cpuidLoop_run (env : CpuidEnv) :
    ∀ fuel i k info, k ≤ fuel →
      (∀ j, j < k → (env.leaf4 (i + j)).eax % 32 ≠ 0) →
      (k = fuel ∨ (env.leaf4 (i + k)).eax % 32 = 0) →
      cpuidLoop env i fuel info =
        (List.range k).foldl (fun acc j => cpuidApply (env.leaf4 (i + j)) acc) info := by
  intro fuel
  induction fuel with
  | zero =>
    intro i k info hk _ _
    have hk0 : k = 0 := by omega
    subst hk0
    rfl
  | succ f ih =>
    intro i k info hk hnz hstop
    cases k with
    | zero =>
      rcases hstop with h | h
      · omega
      · rw [cpuidLoop_step, if_pos (by simpa using h)]
        rfl
    | succ kk =>
      have h0 : (env.leaf4 i).eax % 32 ≠ 0 := by simpa using hnz 0 (by omega)
      rw [cpuidLoop_step, if_neg h0]
      rw [ih (i + 1) kk (cpuidApply (env.leaf4 i) info) (by omega)
        (fun j hj => by
          have := hnz (j + 1) (by omega)
          have harith : i + (j + 1) = i + 1 + j := by omega
          rw [harith] at this
          exact this)
        (by
          rcases hstop with h | h
          · exact Or.inl (by omega)
          · refine Or.inr ?_
            have harith : i + (kk + 1) = i + 1 + kk := by omega
            rw [harith] at h
            exact h)]
      rw [List.range_succ_eq_map, List.foldl_cons, List.foldl_map]
      have harith : (fun (x : cache_info_t) (y : ℕ) => cpuidApply (env.leaf4 (i + y.succ)) x) =
          fun acc j => cpuidApply (env.leaf4 (i + 1 + j)) acc := by
        funext x y
        have hy : i + y.succ = i + 1 + y := by omega
        rw [hy]
      rw [harith, show i + 0 = i from rfl]

/-- C7: the CPUID probe runs if and only if, after the native probe,
the L3 field still equals the hardcoded 8 MB default and the build is
for an x86 host; nothing happens when leaf 4 is unsupported, the scan
applies every non-terminating descriptor it finds, in order, up to the
32-subleaf bound, and each descriptor overrides the current values:
the line size unconditionally, and the cache-size field selected by
its level and type — level-1 data, level-1 instruction, level 2 and
level 3 each overwrite their field with the encoded size, leaving the
other cache fields at their current values, while any other
level/type combination overrides only the line size. -/
theorem cpuid_probe_gating :
    (∀ lenv cenv, (detect_cache_linux lenv cacheDefaults).l3_size ≠ 8 * 1024 * 1024 →
      detect_cache_info true lenv cenv = detect_cache_linux lenv cacheDefaults) ∧
    (∀ lenv cenv, detect_cache_info false lenv cenv = detect_cache_linux lenv cacheDefaults) ∧
    (∀ lenv cenv, (detect_cache_linux lenv cacheDefaults).l3_size = 8 * 1024 * 1024 →
      detect_cache_info true lenv cenv =
        detect_cache_cpuid cenv (detect_cache_linux lenv cacheDefaults)) ∧
    (∀ cenv info, cenv.leaf0eax < 4 → detect_cache_cpuid cenv info = info) ∧
    (∀ cenv info k, k ≤ 32 → (∀ j, j < k → (cenv.leaf4 j).eax % 32 ≠ 0) →
      (k = 32 ∨ (cenv.leaf4 k).eax % 32 = 0) → 4 ≤ cenv.leaf0eax →
      detect_cache_cpuid cenv info =
        (List.range k).foldl (fun acc j => cpuidApply (cenv.leaf4 j) acc) info) ∧
    (∀ r info, (cpuidApply r info).line_size = r.ebx % 4096 + 1) ∧
    (∀ r info, r.eax / 32 % 8 = 1 → r.eax % 32 = 1 →
      cpuidApply r info =
        { info with line_size := r.ebx % 4096 + 1, l1d_size := cpuidDescSize r }) ∧
    (∀ r info, r.eax / 32 % 8 = 1 → r.eax % 32 = 2 →
      cpuidApply r info =
        { info with line_size := r.ebx % 4096 + 1, l1i_size := cpuidDescSize r }) ∧
    (∀ r info, r.eax / 32 % 8 = 2 →
      cpuidApply r info =
        { info with line_size := r.ebx % 4096 + 1, l2_size := cpuidDescSize r }) ∧
    (∀ r info, r.eax / 32 % 8 = 3 →
      cpuidApply r info =
        { info with line_size := r.ebx % 4096 + 1, l3_size := cpuidDescSize r }) ∧
    (∀ r info, r.eax / 32 % 8 = 1 → r.eax % 32 ≠ 1 → r.eax % 32 ≠ 2 →
      cpuidApply r info = { info with line_size := r.ebx % 4096 + 1 }) ∧
    (∀ r info, r.eax / 32 % 8 ≠ 1 → r.eax / 32 % 8 ≠ 2 → r.eax / 32 % 8 ≠ 3 →
      cpuidApply r info = { info with line_size := r.ebx % 4096 + 1 }) := by
  refine ⟨?_, fun lenv cenv => rfl, ?_, ?_, ?_, ?_, ?_, ?_, ?_, ?_, ?_, ?_⟩
  · intro lenv cenv h
    simp [detect_cache_info, h]
  · intro lenv cenv h
    simp [detect_cache_info, h]
  · intro cenv info h
    unfold detect_cache_cpuid
    rw [if_pos h]
  · intro cenv info k hk hnz hstop h4
    unfold detect_cache_cpuid
    rw [if_neg (by omega)]
    have h := cpuidLoop_run cenv 32 0 k info hk
      (fun j hj => by simpa using hnz j hj)
      (by
        rcases hstop with h | h
        · exact Or.inl h
        · exact Or.inr (by simpa using h))
    simpa using h
  · intro r info
    simp only [cpuidApply]
    split_ifs <;> rfl
  · intro r info h1 h2
    simp [cpuidApply, cpuidDescSize, h1, h2]
  · intro r info h1 h2
    simp [cpuidApply, cpuidDescSize, h1, h2]
  · intro r info h1
    simp [cpuidApply, cpuidDescSize, h1]
  · intro r info h1
    simp [cpuidApply, cpuidDescSize, h1]
  · intro r info h1 h2 h3
    simp [cpuidApply, h1, h2, h3]
  · intro r info h1 h2 h3
    simp [cpuidApply, h1, h2, h3]

/-- C7 witness: a sysfs environment that finds a non-default L3 (the
probe is skipped), one where nothing is found (the probe runs), an
unsupported-leaf environment (nothing happens), a three-descriptor
scan that applies all three descriptors in order, and each
per-descriptor override instantiated on concrete L1-data, L1-instr,
L2, L3, level-1-other-type and level-4 descriptors over the default
topology. -/
theorem cpuid_probe_gating_witness :
    ((detect_cache_linux lenvL3Found cacheDefaults).l3_size ≠ 8 * 1024 * 1024 ∧
      detect_cache_info true lenvL3Found cenvOneL3 = detect_cache_linux lenvL3Found cacheDefaults) ∧
    ((detect_cache_linux lenvAllFail cacheDefaults).l3_size = 8 * 1024 * 1024 ∧
      detect_cache_info true lenvAllFail cenvOneL3 =
        detect_cache_cpuid cenvOneL3 (detect_cache_linux lenvAllFail cacheDefaults)) ∧
    detect_cache_cpuid cenvEmpty cacheDefaults = cacheDefaults ∧
    (detect_cache_cpuid cenvMulti cacheDefaults =
      (List.range 3).foldl (fun acc j => cpuidApply (cenvMulti.leaf4 j) acc) cacheDefaults ∧
      detect_cache_cpuid cenvMulti cacheDefaults =
        ⟨262144, 32 * 1024, 524288, 262144, 64, 0⟩) ∧
    (cpuidApply ⟨33, 63, 4095, 0⟩ cacheDefaults =
      ⟨262144, 32 * 1024, 256 * 1024, 8 * 1024 * 1024, 64, 0⟩) ∧
    (cpuidApply ⟨34, 63, 4095, 0⟩ cacheDefaults =
      ⟨32 * 1024, 262144, 256 * 1024, 8 * 1024 * 1024, 64, 0⟩) ∧
    (cpuidApply ⟨65, 63, 8191, 0⟩ cacheDefaults =
      ⟨32 * 1024, 32 * 1024, 524288, 8 * 1024 * 1024, 64, 0⟩) ∧
    (cpuidApply ⟨97, 63, 4095, 0⟩ cacheDefaults =
      ⟨32 * 1024, 32 * 1024, 256 * 1024, 262144, 64, 0⟩) ∧
    (cpuidApply ⟨35, 63, 4095, 0⟩ cacheDefaults =
      ⟨32 * 1024, 32 * 1024, 256 * 1024, 8 * 1024 * 1024, 64, 0⟩) ∧
    (cpuidApply ⟨129, 63, 4095, 0⟩ cacheDefaults =
      ⟨32 * 1024, 32 * 1024, 256 * 1024, 8 * 1024 * 1024, 64, 0⟩) := by
  refine ⟨⟨by decide, cpuid_probe_gating.1 lenvL3Found cenvOneL3 (by decide)⟩,
    ⟨by decide, cpuid_probe_gating.2.2.1 lenvAllFail cenvOneL3 (by decide)⟩,
    cpuid_probe_gating.2.2.2.1 cenvEmpty cacheDefaults (by decide),
    ⟨?_, ?_⟩, ?_, ?_, ?_, ?_, ?_, ?_⟩
  · exact cpuid_probe_gating.2.2.2.2.1 cenvMulti cacheDefaults 3 (by decide) (by decide)
      (by decide) (by decide)
  · rw [cpuid_probe_gating.2.2.2.2.1 cenvMulti cacheDefaults 3 (by decide) (by decide)
      (by decide) (by decide)]
    decide
  · rw [cpuid_probe_gating.2.2.2.2.2.2.1 ⟨33, 63, 4095, 0⟩ cacheDefaults (by decide) (by decide)]
    decide
  · rw [cpuid_probe_gating.2.2.2.2.2.2.2.1 ⟨34, 63, 4095, 0⟩ cacheDefaults (by decide) (by decide)]
    decide
  · rw [cpuid_probe_gating.2.2.2.2.2.2.2.2.1 ⟨65, 63, 8191, 0⟩ cacheDefaults (by decide)]
    decide
  · rw [cpuid_probe_gating.2.2.2.2.2.2.2.2.2.1 ⟨97, 63, 4095, 0⟩ cacheDefaults (by decide)]
    decide
  · rw [cpuid_probe_gating.2.2.2.2.2.2.2.2.2.2.1 ⟨35, 63, 4095, 0⟩ cacheDefaults (by decide)
      (by decide) (by decide)]
    decide
  · rw [cpuid_probe_gating.2.2.2.2.2.2.2.2.2.2.2 ⟨129, 63, 4095, 0⟩ cacheDefaults (by decide)
      (by decide) (by decide)]
    decide

/-- C8: when any of the three buffer allocations fails, run_benchmark
terminates with exit status 1, running no kernel and producing no
measurement report. -/
theorem run_benchmark_alloc_failure (env : AllocEnv) (times : ℕ → ℕ → ℚ) (n N : ℕ)
    (h : env.allocA = none ∨ env.allocB = none ∨ env.allocC = none) :
    run_benchmark env times n N = Except.error 1 := by
  obtain ⟨oa, ob, oc⟩ := env
  cases oa <;> cases ob <;> cases oc <;>
    first
      | rfl
      | (rcases h with h | h | h <;> exact Option.noConfusion h)

/-- C8 witness: the first allocation fails. -/
theorem run_benchmark_alloc_failure_witness :
    (AllocEnv.mk none (some fun _ => 0) (some fun _ => 0)).allocA = none ∧
    run_benchmark (AllocEnv.mk none (some fun _ => 0) (some fun _ => 0)) (fun _ _ => 1) 4 20 =
      Except.error 1 :=
  ⟨rfl, run_benchmark_alloc_failure _ _ 4 20 (Or.inl rfl)⟩
